import Mathlib

/-!
Verification of the S/MIME signing core of the `sigh` milter.

The repository supplies `src/smime.h`, the declaration of class `smime::Smime`
with its public operations (`sign`, `isSmimeSigned`), its private helpers
(`addHeader`, `removeHeader`, `handleSSLError`, `loadIntermediate`) and its
state (`ctx`, `smimeSigned`, `mailFrom`).  The matching implementation file
(`smime.cpp`, the bodies of these methods) is not part of the supplied
sources, so the behaviour of the signing engine is modelled from the
specification; the one piece of executable code in the header, the inline
accessor `isSmimeSigned`, is embedded directly from the source.
-/

namespace Smime

/-- Modelled from the spec: the error taxonomy of section 7 — `NotFound` (no
signing identity for the sender), `ParseError` (malformed intermediate
bundle), `CryptoFailure` (signing primitive rejected inputs, including a
private key that fails to load), `EncodingFailure` (MIME serialization
failed), `SessionError` (host rejected a mutation).  `smime.cpp` is missing
from the sources. -/
inductive SmimeError where
  | notFound
  | parseError
  | cryptoFailure
  | encodingFailure
  | sessionError
deriving DecidableEq, Repr

/-- Modelled from the spec: an X509 certificate, abstracted to the identity of
the public key it certifies.  The OpenSSL handle types wrapped in
`smime.h` are opaque; only the pairing of certificate and private key is
observable to the signing core. -/
structure Cert where
  keyId : Nat
deriving DecidableEq, Repr

/-- Modelled from the spec: the signer's private key.  `keyId` pairs it with
its leaf certificate; `loadable` records whether loading the key material
succeeds (section 8 scenario: a key that fails to load yields
`CryptoFailure`). -/
structure PrivKey where
  keyId : Nat
  loadable : Bool
deriving DecidableEq, Repr

/-- Modelled from the spec: one block of an intermediate bundle file, which
"may contain zero or more concatenated certificates" with hand-edited
non-certificate filler between them: a valid certificate block, skippable
noise, or malformed certificate data. -/
inductive FileItem where
  | cert (c : Cert)
  | noise
  | malformed
deriving DecidableEq, Repr

/-- Modelled from the spec: the filesystem as seen by the chain loader — a
path either names no file or a file with a sequence of blocks. -/
abbrev FileSystem := String → Option (List FileItem)

/-- Modelled from the spec: the parse loop of `Smime::loadIntermediate`
(its body is missing from the sources): valid certificate blocks are
collected in file order, non-certificate noise is skipped, and the first
malformed block aborts the load with `ParseError` (the "jump label on
error" of the original, section 9). -/
def parseBundle : List FileItem → Except SmimeError (List Cert)
  | [] => .ok []
  | .cert c :: rest => (parseBundle rest).map (fun cs => c :: cs)
  | .noise :: rest => parseBundle rest
  | .malformed :: _ => .error .parseError

/-- Modelled from the spec: `Smime::loadIntermediate` — an absent file gives
an empty chain (intermediates are optional, not an error); a present file is
parsed by the tolerant parse loop. -/
def loadIntermediate (fs : FileSystem) (path : String) :
    Except SmimeError (List Cert) :=
  match fs path with
  | none => .ok []
  | some items => parseBundle items

/-- Modelled from the spec: a detached PKCS#7 signature, abstracted to the
key that produced it and the exact bytes it signs. -/
structure Sig where
  sigKeyId : Nat
  signedData : String
deriving DecidableEq, Repr

/-- Modelled from the spec: the signing primitive as a capability provider —
"given a private key ... produce a detached signature over a byte
buffer". -/
def mkDetachedSig (key : PrivKey) (content : String) : Sig :=
  ⟨key.keyId, content⟩

/-- Modelled from the spec: signature verification by an external verifier —
a detached signature is valid for a certificate over some content when it
was produced by the certificate's paired key over exactly that content. -/
def verifySig (cert : Cert) (content : String) (s : Sig) : Bool :=
  s.sigKeyId == cert.keyId && s.signedData == content

/-- Modelled from the spec: the canonical line-ending transform applied to
the body before detached signing, "since signature digests are sensitive to
line-ending representation": every bare newline becomes CRLF. -/
def canonicalize (body : String) : String :=
  String.mk (body.data.foldr
    (fun ch acc => if ch = '\n' then '\r' :: '\n' :: acc else ch :: acc) [])

/-- Modelled from the spec: the Signature Artifact — the signed-data
structure carrying the full certificate chain (leaf first, then
intermediates), the canonicalized content part, and the detached signature
part of the multipart/signed serialization. -/
structure Artifact where
  chain : List Cert
  contentPart : String
  signaturePart : Sig
deriving DecidableEq, Repr

/-- Modelled from the spec: loading the signer's private key; a key that
fails to load is reported as `CryptoFailure` (section 8 scenario). -/
def loadKey (key : PrivKey) : Except SmimeError PrivKey :=
  if key.loadable then .ok key else .error .cryptoFailure

/-- Modelled from the spec: `signMessageBody(body, signerCert, signerKey,
chain)` — builds the signed structure over the canonicalized body, attaching
the leaf certificate followed by the intermediate chain; a mismatched
key/certificate pair is rejected with `CryptoFailure`. -/
def signMessageBody (body : String) (cert : Cert) (key : PrivKey)
    (chain : List Cert) : Except SmimeError Artifact :=
  if key.keyId = cert.keyId then
    .ok ⟨cert :: chain, canonicalize body, mkDetachedSig key (canonicalize body)⟩
  else
    .error .cryptoFailure

/-- Modelled from the spec: the content-describing headers of the original
message that the signed envelope supersedes and must remove. -/
def contentHeaders : List String :=
  ["Content-Type", "Content-Transfer-Encoding", "Content-Disposition"]

/-- Modelled from the spec: the signed content-type declaration announcing
the multipart/signed structure, with the S/MIME protocol and micalg
parameters. -/
def signedContentType : String :=
  "multipart/signed; protocol=\"application/pkcs7-signature\"; micalg=\"sha-256\"; boundary=\"sigh\""

/-- Modelled from the spec: the Header Delta additions — "a deterministic,
minimal set: the signed content-type declaration and any header required to
describe the signature encoding". -/
def newHeaders : List (String × String) :=
  [("Content-Type", signedContentType), ("MIME-Version", "1.0")]

/-- Modelled from the spec: the textual encoding of the signature part of
the multipart/signed body. -/
def encodeSig (s : Sig) : String :=
  "pkcs7-signature(" ++ toString s.sigKeyId ++ ")"

/-- Modelled from the spec: the MIME serialization of a Signature Artifact —
a boundary-delimited multipart/signed body whose first part is the
canonicalized original content and whose second part is the detached
signature. -/
def serialize (a : Artifact) : String :=
  "--sigh\r\n" ++ a.contentPart ++ "\r\n--sigh\r\n"
    ++ encodeSig a.signaturePart ++ "\r\n--sigh--\r\n"

/-- Modelled from the spec: the three mutation primitives the core issues
against the borrowed milter context (`Smime::addHeader`,
`Smime::removeHeader` and the body replacement; their bodies are missing
from the sources). -/
inductive Mutation where
  | addHeader (name value : String)
  | removeHeader (name : String)
  | replaceBody (content : String)
deriving DecidableEq, Repr

/-- Modelled from the spec: the in-flight message held by the filter
session. -/
structure Message where
  headers : List (String × String)
  body : String
deriving DecidableEq, Repr

/-- Modelled from the spec: the effect of one accepted mutation on the
in-flight message: append a header, delete all occurrences of a header, or
substitute the entire body. -/
def applyMutation (msg : Message) : Mutation → Message
  | .addHeader n v => ⟨msg.headers ++ [(n, v)], msg.body⟩
  | .removeHeader n => ⟨msg.headers.filter (fun h => h.1 != n), msg.body⟩
  | .replaceBody b => ⟨msg.headers, b⟩

/-- Modelled from the spec: one Signing Session per mail transaction — the
in-flight message reachable through the borrowed milter context, the log of
mutations the host accepted and of all mutations issued, the success flag
`smimeSigned`, and the normalized sender address `mailFrom`. -/
structure Session where
  msg : Message
  applied : List Mutation
  issued : List Mutation
  smimeSigned : Bool
  mailFrom : String
deriving DecidableEq, Repr

/-- Modelled from the spec: the normalization of the raw MAIL FROM address
performed by the constructor `Smime::Smime` (its body is missing from the
sources): "we strip away the angle brackets", keeping every other character
as supplied. -/
def stripAngles : List Char → List Char
  | [] => []
  | c :: cs => if c = '<' ∨ c = '>' then stripAngles cs else c :: stripAngles cs

/-- Modelled from the spec: the normalized sender address used as the key
into the certificate store. -/
def normalizeMailFrom (raw : String) : String :=
  String.mk (stripAngles raw.data)

/-- Modelled from the spec: session construction when a mail transaction
begins — the success flag starts false, no mutation has been issued, and the
sender address is normalized. -/
def mkSession (original : Message) (rawFrom : String) : Session :=
  ⟨original, [], [], false, normalizeMailFrom rawFrom⟩

/-- Embedded from the source (`smime.h`, line 74): the read-only accessor
`isSmimeSigned` returns the `smimeSigned` member. -/
def isSmimeSigned (s : Session) : Bool := s.smimeSigned

/-- Modelled from the spec: the environment of one sign operation — the
certificate store keyed by normalized sender address, the filesystem, the
bundle path associated with a signer, the host's acceptance of each mutation
primitive, and whether MIME serialization succeeds. -/
structure Env where
  certStore : String → Option (Cert × PrivKey)
  fs : FileSystem
  bundlePath : String → String
  hostAccepts : Mutation → Bool
  encodingOk : Bool

/-- Modelled from the spec: `Smime::handleSSLError` — the single error
handler through which every failure is reported; it marks the session
unsuccessful and touches nothing else. -/
def handleSSLError (s : Session) : Session :=
  { s with smimeSigned := false }

/-- Modelled from the spec: issuing a list of mutations in order against the
host.  Each accepted mutation is applied to the message and logged; the
first rejected mutation is logged as issued, stops the loop with failure,
and leaves the message in its partially mutated state (the known gap of
section 7). -/
def runMutations (host : Mutation → Bool) (s : Session) :
    List Mutation → Session × Bool
  | [] => (s, true)
  | m :: rest =>
    if host m then
      runMutations host
        ⟨applyMutation s.msg m, s.applied ++ [m], s.issued ++ [m],
          s.smimeSigned, s.mailFrom⟩ rest
    else
      ({ s with issued := s.issued ++ [m] }, false)

/-- Modelled from the spec: the resolution and signing phase of
`Smime::sign` that runs before any mutation — locate the signer's
certificate and key, load the key, resolve the intermediate chain, build the
Signature Artifact, and serialize it to MIME form.  On any failure no
artifact is exposed to the Message Mutator. -/
def resolveAndBuild (env : Env) (s : Session) : Except SmimeError Artifact :=
  match env.certStore s.mailFrom with
  | none => .error .notFound
  | some (cert, key) =>
      match loadKey key with
      | .error e => .error e
      | .ok key =>
          match loadIntermediate env.fs (env.bundlePath s.mailFrom) with
          | .error e => .error e
          | .ok chain =>
              match signMessageBody s.msg.body cert key chain with
              | .error e => .error e
              | .ok art =>
                  if env.encodingOk then .ok art
                  else .error .encodingFailure

/-- Modelled from the spec: the Header Delta and body replacement computed
once per sign operation, issued in the required order — removals of the
content-describing headers first, then the additions of their signed
replacements, then the body replacement last. -/
def computeMutations (a : Artifact) : List Mutation :=
  contentHeaders.map Mutation.removeHeader
    ++ newHeaders.map (fun p => Mutation.addHeader p.1 p.2)
    ++ [Mutation.replaceBody (serialize a)]

/-- Modelled from the spec: the body of `Smime::sign` (missing from the
sources) with its internal failure made visible: resolution and signing,
then the mutation phase; every failure goes through `handleSSLError`, and
only a fully applied mutation list sets the success flag. -/
def signCore (env : Env) (s : Session) : Session × Option SmimeError :=
  match resolveAndBuild env s with
  | .error e => (handleSSLError s, some e)
  | .ok art =>
      match runMutations env.hostAccepts s (computeMutations art) with
      | (s', true) => ({ s' with smimeSigned := true }, none)
      | (s', false) => (handleSSLError s', some .sessionError)

/-- Modelled from the spec: `Smime::sign` as seen by its caller — a total
operation on the session; every internal failure has already been converted
into "session unsuccessful" by `handleSSLError`, so nothing propagates to
the mail transaction. -/
def sign (env : Env) (s : Session) : Session :=
  (signCore env s).1

/-- The certificates of the bundle's blocks, in file order. -/
def bundleCerts (items : List FileItem) : List Cert :=
  items.filterMap (fun i => match i with
    | .cert c => some c
    | .noise => none
    | .malformed => none)

/-- A bundle with no malformed block parses to exactly its certificate
blocks, in file order. -/
theorem parseBundle_ok_of_no_malformed (items : List FileItem)
    (hno : FileItem.malformed ∉ items) :
    parseBundle items = .ok (bundleCerts items) := by
  induction items with
  | nil => rfl
  | cons i rest ih =>
      have hrest : FileItem.malformed ∉ rest := fun hm => hno (List.mem_cons_of_mem _ hm)
      cases i with
      | cert c => simp [parseBundle, bundleCerts, ih hrest, List.filterMap_cons, Except.map]
      | noise => simp [parseBundle, bundleCerts, ih hrest, List.filterMap_cons]
      | malformed => exact absurd (List.mem_cons_self _ _) hno

/-- A bundle containing a malformed block fails to parse with `ParseError`. -/
theorem parseBundle_error_of_malformed (items : List FileItem)
    (hmal : FileItem.malformed ∈ items) :
    parseBundle items = .error .parseError := by
  induction items with
  | nil => cases hmal
  | cons i rest ih =>
      cases i with
      | cert c =>
          have : FileItem.malformed ∈ rest := by
            rcases List.mem_cons.mp hmal with h | h
            · cases h
            · exact h
          simp [parseBundle, ih this, Except.map]
      | noise =>
          have : FileItem.malformed ∈ rest := by
            rcases List.mem_cons.mp hmal with h | h
            · cases h
            · exact h
          simp [parseBundle, ih this]
      | malformed => rfl

/-- When the host accepts every mutation, the whole list is applied in
order and the run succeeds. -/
theorem runMutations_all_accept (host : Mutation → Bool)
    (hhost : ∀ m, host m = true) (ms : List Mutation) :
    ∀ s : Session,
      runMutations host s ms =
        (⟨ms.foldl applyMutation s.msg, s.applied ++ ms, s.issued ++ ms,
          s.smimeSigned, s.mailFrom⟩, true) := by
  induction ms with
  | nil => intro s; simp [runMutations]
  | cons m rest ih =>
      intro s
      rw [runMutations, if_pos (hhost m), ih]
      simp

/-- A successful run applied and issued exactly the given list, in order,
leaving the flag and sender address untouched. -/
theorem runMutations_succeeds (host : Mutation → Bool) (ms : List Mutation) :
    ∀ s s' : Session, runMutations host s ms = (s', true) →
      s' = ⟨ms.foldl applyMutation s.msg, s.applied ++ ms, s.issued ++ ms,
        s.smimeSigned, s.mailFrom⟩ := by
  induction ms with
  | nil =>
      intro s s' h
      simp only [runMutations, Prod.mk.injEq] at h
      simp [← h.1]
  | cons m rest ih =>
      intro s s' h
      by_cases hm : host m = true
      · rw [runMutations, if_pos hm] at h
        have := ih _ _ h
        simp only [this]
        simp
      · rw [runMutations, if_neg hm] at h
        simp at h

/-- A failed run applied a proper prefix of the given list and issued that
prefix plus the one rejected mutation, leaving the flag untouched. -/
theorem runMutations_fails (host : Mutation → Bool) (ms : List Mutation) :
    ∀ s s' : Session, runMutations host s ms = (s', false) →
      ∃ j, j < ms.length ∧
        s' = ⟨(ms.take j).foldl applyMutation s.msg, s.applied ++ ms.take j,
          s.issued ++ ms.take (j + 1), s.smimeSigned, s.mailFrom⟩ := by
  induction ms with
  | nil =>
      intro s s' h
      simp [runMutations] at h
  | cons m rest ih =>
      intro s s' h
      by_cases hm : host m = true
      · rw [runMutations, if_pos hm] at h
        obtain ⟨j, hj, hs⟩ := ih _ _ h
        refine ⟨j + 1, by simpa using Nat.succ_lt_succ hj, ?_⟩
        simp only [hs]
        simp
      · rw [runMutations, if_neg hm] at h
        simp only [Prod.mk.injEq] at h
        refine ⟨0, by simp, ?_⟩
        simp [← h.1]

/-- Whatever the host decides, the issued log grows by a prefix of the
mutation list. -/
theorem runMutations_issued_take (host : Mutation → Bool)
    (ms : List Mutation) (s : Session) :
    ∃ k, (runMutations host s ms).1.issued = s.issued ++ ms.take k := by
  rcases hr : runMutations host s ms with ⟨s', b⟩
  cases b with
  | false =>
      obtain ⟨j, _, hs⟩ := runMutations_fails host ms s s' hr
      exact ⟨j + 1, by simp [hs]⟩
  | true =>
      have hs := runMutations_succeeds host ms s s' hr
      exact ⟨ms.length, by simp [hs]⟩

/-- Master characterization of the success flag: after `sign`, the flag
reads true exactly when an artifact was built and the whole mutation list
was applied. -/
theorem sign_flag_iff (env : Env) (s : Session) :
    isSmimeSigned (sign env s) = true ↔
      ∃ a : Artifact, resolveAndBuild env s = .ok a ∧
        (sign env s).applied = s.applied ++ computeMutations a := by
  cases hr : resolveAndBuild env s with
  | error e =>
      simp [sign, signCore, hr, handleSSLError, isSmimeSigned]
  | ok a =>
      rcases hm : runMutations env.hostAccepts s (computeMutations a) with ⟨s', b⟩
      cases b with
      | true =>
          have hs := runMutations_succeeds _ _ _ _ hm
          constructor
          · intro _
            refine ⟨a, rfl, ?_⟩
            simp [sign, signCore, hr, hm, hs]
          · intro _
            simp [sign, signCore, hr, hm, isSmimeSigned]
      | false =>
          obtain ⟨j, hj, hs⟩ := runMutations_fails _ _ _ _ hm
          constructor
          · intro h
            simp [sign, signCore, hr, hm, handleSSLError, isSmimeSigned] at h
          · rintro ⟨a', ha', happ⟩
            injection ha' with haa
            subst haa
            simp only [sign, signCore, hr, hm, handleSSLError] at happ
            rw [hs] at happ
            simp only at happ
            have hlen := congrArg List.length happ
            simp [List.length_take] at hlen
            exfalso
            omega

/-- `stripAngles` keeps exactly the characters other than the angle
brackets, in order. -/
theorem stripAngles_eq_filter (cs : List Char) :
    stripAngles cs = cs.filter (fun ch => ch != '<' && ch != '>') := by
  induction cs with
  | nil => rfl
  | cons c cs ih =>
      by_cases h : c = '<' ∨ c = '>'
      · rw [stripAngles, if_pos h]
        rcases h with h | h <;> subst h <;> simp [List.filter_cons, ih]
      · rw [stripAngles, if_neg h]
        push_neg at h
        simp [List.filter_cons, ih, h.1, h.2]

/-- C1: the session's success flag, read through `isSmimeSigned`, is true
after `sign` if and only if a Signature Artifact was fully constructed and
the whole computed mutation list (the Header Delta plus the body
replacement) was applied; whenever the mutations are only partially
applied, the flag reads false. -/
theorem smime_success_flag_iff (env : Env) (s : Session) :
    (isSmimeSigned (sign env s) = true ↔
      ∃ a : Artifact, resolveAndBuild env s = .ok a ∧
        (sign env s).applied = s.applied ++ computeMutations a) ∧
    (∀ a : Artifact, resolveAndBuild env s = .ok a →
      (sign env s).applied ≠ s.applied ++ computeMutations a →
      isSmimeSigned (sign env s) = false) := by
  refine ⟨sign_flag_iff env s, fun a ha hne => ?_⟩
  cases hflag : isSmimeSigned (sign env s) with
  | false => rfl
  | true =>
      obtain ⟨a', ha', happ⟩ := (sign_flag_iff env s).mp hflag
      rw [ha] at ha'
      injection ha' with haa
      subst haa
      exact absurd happ hne

/-- C2: a bundle file of N valid certificate blocks interspersed with
non-certificate noise loads to exactly those N certificates in file
order; the noise is skipped, not fatal. -/
theorem loadIntermediate_skips_noise (fs : FileSystem) (path : String)
    (items : List FileItem) (hfs : fs path = some items)
    (hno : FileItem.malformed ∉ items) :
    loadIntermediate fs path = .ok (bundleCerts items) := by
  simp [loadIntermediate, hfs, parseBundle_ok_of_no_malformed items hno]

/-- A hand-edited bundle: two certificate blocks with noise around them. -/
def noisyBundle : List FileItem :=
  [.noise, .cert ⟨1⟩, .noise, .cert ⟨2⟩, .noise]

/-- A filesystem holding the noisy bundle at every path. -/
def noisyFs : FileSystem := fun _ => some noisyBundle

theorem loadIntermediate_skips_noise_witness :
    noisyFs "bundle.pem" = some noisyBundle ∧
    FileItem.malformed ∉ noisyBundle ∧
    bundleCerts noisyBundle = [⟨1⟩, ⟨2⟩] ∧
    loadIntermediate noisyFs "bundle.pem" = .ok (bundleCerts noisyBundle) :=
  ⟨rfl, by decide, by decide,
    loadIntermediate_skips_noise noisyFs "bundle.pem" noisyBundle rfl (by decide)⟩

/-- C7: an absent bundle file loads as an empty chain without error, while
a present file containing malformed certificate data fails with
`ParseError`. -/
theorem loadIntermediate_absent_or_malformed (fsa fsb : FileSystem)
    (pa pb : String) (items : List FileItem)
    (ha : fsa pa = none) (hb : fsb pb = some items)
    (hmal : FileItem.malformed ∈ items) :
    loadIntermediate fsa pa = .ok [] ∧
    loadIntermediate fsb pb = .error .parseError := by
  constructor
  · simp [loadIntermediate, ha]
  · simp [loadIntermediate, hb, parseBundle_error_of_malformed items hmal]

/-- A filesystem with no files at all. -/
def absentFs : FileSystem := fun _ => none

/-- A bundle whose second block is malformed certificate data. -/
def malformedBundle : List FileItem := [.cert ⟨1⟩, .malformed]

/-- A filesystem holding the malformed bundle at every path. -/
def malformedFs : FileSystem := fun _ => some malformedBundle

theorem loadIntermediate_absent_or_malformed_witness :
    absentFs "missing.pem" = none ∧
    malformedFs "bad.pem" = some malformedBundle ∧
    FileItem.malformed ∈ malformedBundle ∧
    (loadIntermediate absentFs "missing.pem" = .ok [] ∧
      loadIntermediate malformedFs "bad.pem" = .error .parseError) :=
  ⟨rfl, rfl, by decide,
    loadIntermediate_absent_or_malformed absentFs malformedFs "missing.pem"
      "bad.pem" malformedBundle rfl rfl (by decide)⟩

/-- C9: the session's normalized sender address, the key used for the
certificate-store lookup, is the raw MAIL FROM address with every angle
bracket stripped and all other characters, including letter case, kept in
order as supplied. -/
theorem mailFrom_normalized (original : Message) (raw : String) :
    (mkSession original raw).mailFrom =
      String.mk (raw.data.filter (fun ch => ch != '<' && ch != '>')) := by
  simp [mkSession, normalizeMailFrom, stripAngles_eq_filter]

/-- C10: right after construction the success flag reads false, and after a
`sign` call the flag reads true only when the sign operation fully
succeeded: an artifact was built and the entire mutation list applied. -/
theorem smimeSigned_initially_false_until_success (env : Env)
    (original : Message) (raw : String) :
    isSmimeSigned (mkSession original raw) = false ∧
    (isSmimeSigned (sign env (mkSession original raw)) = true →
      ∃ a : Artifact, resolveAndBuild env (mkSession original raw) = .ok a ∧
        (sign env (mkSession original raw)).applied = computeMutations a) := by
  refine ⟨rfl, fun h => ?_⟩
  obtain ⟨a, ha, happ⟩ := (sign_flag_iff env (mkSession original raw)).mp h
  exact ⟨a, ha, by simpa [mkSession] using happ⟩

/-- C3: when no certificate/key pair is registered for the sender, `sign`
leaves the success flag false and the message byte-for-byte unchanged; no
add-header, remove-header or replace-body mutation is issued. -/
theorem sign_unknown_sender_frame (env : Env) (original : Message)
    (raw : String)
    (hstore : env.certStore (normalizeMailFrom raw) = none) :
    isSmimeSigned (sign env (mkSession original raw)) = false ∧
    (sign env (mkSession original raw)).msg = original ∧
    (sign env (mkSession original raw)).applied = [] ∧
    (sign env (mkSession original raw)).issued = [] := by
  have hr : resolveAndBuild env (mkSession original raw) =
      .error .notFound := by
    simp [resolveAndBuild, mkSession, hstore]
  simp only [sign, signCore, hr, handleSSLError]
  simp [isSmimeSigned, mkSession]

/-- A message used by the concrete scenarios. -/
def plainMsg : Message :=
  ⟨[("Subject", "hello"), ("Content-Type", "text/plain")], "Hi there"⟩

/-- An environment whose certificate store knows no sender. -/
def emptyStoreEnv : Env :=
  ⟨fun _ => none, absentFs, fun _ => "chain.pem", fun _ => true, true⟩

theorem sign_unknown_sender_frame_witness :
    emptyStoreEnv.certStore (normalizeMailFrom "<bob@example.org>") = none ∧
    (isSmimeSigned (sign emptyStoreEnv (mkSession plainMsg "<bob@example.org>")) = false ∧
      (sign emptyStoreEnv (mkSession plainMsg "<bob@example.org>")).msg = plainMsg ∧
      (sign emptyStoreEnv (mkSession plainMsg "<bob@example.org>")).applied = [] ∧
      (sign emptyStoreEnv (mkSession plainMsg "<bob@example.org>")).issued = []) :=
  ⟨rfl, sign_unknown_sender_frame emptyStoreEnv plainMsg "<bob@example.org>" rfl⟩

/-- C4: when the sender's certificate is found but the matching private key
fails to load, the failure is `CryptoFailure`, the success flag is false
and no mutation has touched the message. -/
theorem sign_key_load_failure_atomic (env : Env) (original : Message)
    (raw : String) (cert : Cert) (key : PrivKey)
    (hstore : env.certStore (normalizeMailFrom raw) = some (cert, key))
    (hload : key.loadable = false) :
    (signCore env (mkSession original raw)).2 = some SmimeError.cryptoFailure ∧
    isSmimeSigned (sign env (mkSession original raw)) = false ∧
    (sign env (mkSession original raw)).msg = original ∧
    (sign env (mkSession original raw)).applied = [] ∧
    (sign env (mkSession original raw)).issued = [] := by
  have hr : resolveAndBuild env (mkSession original raw) =
      .error .cryptoFailure := by
    simp [resolveAndBuild, mkSession, hstore, loadKey, hload]
  simp only [sign, signCore, hr, handleSSLError]
  simp [isSmimeSigned, mkSession]

/-- A certificate paired with a key that fails to load. -/
def leafCert : Cert := ⟨7⟩

/-- The unloadable private key matching `leafCert`. -/
def stuckKey : PrivKey := ⟨7, false⟩

/-- An environment registering `leafCert` with the unloadable key for every
sender. -/
def stuckKeyEnv : Env :=
  ⟨fun _ => some (leafCert, stuckKey), absentFs, fun _ => "chain.pem",
    fun _ => true, true⟩

theorem sign_key_load_failure_atomic_witness :
    stuckKeyEnv.certStore (normalizeMailFrom "<bob@example.org>")
      = some (leafCert, stuckKey) ∧
    stuckKey.loadable = false ∧
    ((signCore stuckKeyEnv (mkSession plainMsg "<bob@example.org>")).2
        = some SmimeError.cryptoFailure ∧
      isSmimeSigned (sign stuckKeyEnv (mkSession plainMsg "<bob@example.org>")) = false ∧
      (sign stuckKeyEnv (mkSession plainMsg "<bob@example.org>")).msg = plainMsg ∧
      (sign stuckKeyEnv (mkSession plainMsg "<bob@example.org>")).applied = [] ∧
      (sign stuckKeyEnv (mkSession plainMsg "<bob@example.org>")).issued = []) :=
  ⟨rfl, rfl,
    sign_key_load_failure_atomic stuckKeyEnv plainMsg "<bob@example.org>"
      leafCert stuckKey rfl rfl⟩

/-- C6: every failure arising inside the signing path is caught at the
signing-engine boundary: the caller of `sign` receives the session back
(no failure propagates) with the success flag reading false, so the mail
transaction can proceed unsigned. -/
theorem sign_converts_failures (env : Env) (s : Session) (e : SmimeError)
    (h : (signCore env s).2 = some e) :
    sign env s = (signCore env s).1 ∧
    isSmimeSigned (sign env s) = false := by
  refine ⟨rfl, ?_⟩
  rcases hr : resolveAndBuild env s with e' | a
  · simp [sign, signCore, hr, handleSSLError, isSmimeSigned]
  · rcases hm : runMutations env.hostAccepts s (computeMutations a) with ⟨s', b⟩
    cases b with
    | false => simp [sign, signCore, hr, hm, handleSSLError, isSmimeSigned]
    | true => simp [signCore, hr, hm] at h

theorem sign_converts_failures_witness :
    (signCore emptyStoreEnv (mkSession plainMsg "<carol@example.org>")).2
      = some SmimeError.notFound ∧
    (sign emptyStoreEnv (mkSession plainMsg "<carol@example.org>")
        = (signCore emptyStoreEnv (mkSession plainMsg "<carol@example.org>")).1 ∧
      isSmimeSigned (sign emptyStoreEnv (mkSession plainMsg "<carol@example.org>")) = false) :=
  ⟨rfl,
    sign_converts_failures emptyStoreEnv (mkSession plainMsg "<carol@example.org>")
      SmimeError.notFound rfl⟩

/-- C5: the mutations `sign` issues, in order, are removals of the
content-describing headers first, then additions of their signed
replacement headers, then at most one final body replacement; no addition
or body replacement ever precedes the removals. -/
theorem sign_mutation_order (env : Env) (original : Message) (raw : String) :
    ∃ rs as bs : List Mutation,
      (sign env (mkSession original raw)).issued = rs ++ as ++ bs ∧
      (∀ m ∈ rs, ∃ n, n ∈ contentHeaders ∧ m = Mutation.removeHeader n) ∧
      (∀ m ∈ as, ∃ p, p ∈ newHeaders ∧ m = Mutation.addHeader p.1 p.2) ∧
      (bs = [] ∨ ∃ b, bs = [Mutation.replaceBody b]) := by
  rcases hr : resolveAndBuild env (mkSession original raw) with e | a
  · refine ⟨[], [], [], ?_, by simp, by simp, Or.inl rfl⟩
    simp only [sign, signCore, hr, handleSSLError]
    simp [mkSession]
  · obtain ⟨k, hk⟩ := runMutations_issued_take env.hostAccepts
      (computeMutations a) (mkSession original raw)
    have hiss : (sign env (mkSession original raw)).issued =
        (computeMutations a).take k := by
      rcases hm : runMutations env.hostAccepts (mkSession original raw)
          (computeMutations a) with ⟨s', b⟩
      rw [hm] at hk
      cases b with
      | false =>
          simp only [sign, signCore, hr, hm, handleSSLError]
          simpa [mkSession] using hk
      | true =>
          simp only [sign, signCore, hr, hm]
          simpa [mkSession] using hk
    rw [computeMutations, List.take_append_eq_append_take,
      List.take_append_eq_append_take] at hiss
    refine ⟨_, _, _, hiss, ?_, ?_, ?_⟩
    · intro m hm
      have := List.take_subset _ _ hm
      obtain ⟨n, hn, hmn⟩ := List.mem_map.mp this
      exact ⟨n, hn, hmn.symm⟩
    · intro m hm
      have := List.take_subset _ _ hm
      obtain ⟨p, hp, hmp⟩ := List.mem_map.mp this
      exact ⟨p, hp, hmp.symm⟩
    · rcases hn : k - (contentHeaders.map Mutation.removeHeader
          ++ newHeaders.map fun p => Mutation.addHeader p.1 p.2).length with _ | j
      · left
        rfl
      · right
        exact ⟨serialize a, by simp⟩

/-- C8: a sender with a registered certificate/key pair and no intermediate
bundle file yields a chain of exactly the one leaf certificate, an added
signed content-type header, and a body replaced by the multipart/signed
serialization whose second part is a valid detached signature over the
first part; the session ends successful. -/
theorem sign_single_leaf_scenario (env : Env) (original : Message)
    (raw : String) (cert : Cert) (key : PrivKey)
    (hstore : env.certStore (normalizeMailFrom raw) = some (cert, key))
    (hload : key.loadable = true)
    (hmatch : key.keyId = cert.keyId)
    (hfile : env.fs (env.bundlePath (normalizeMailFrom raw)) = none)
    (henc : env.encodingOk = true)
    (hhost : ∀ m, env.hostAccepts m = true) :
    ∃ a : Artifact,
      resolveAndBuild env (mkSession original raw) = .ok a ∧
      a.chain = [cert] ∧
      a.contentPart = canonicalize original.body ∧
      verifySig cert a.contentPart a.signaturePart = true ∧
      Mutation.addHeader "Content-Type" signedContentType
        ∈ (sign env (mkSession original raw)).applied ∧
      (sign env (mkSession original raw)).msg.body = serialize a ∧
      isSmimeSigned (sign env (mkSession original raw)) = true := by
  have hr : resolveAndBuild env (mkSession original raw) =
      .ok ⟨[cert], canonicalize original.body,
        mkDetachedSig key (canonicalize original.body)⟩ := by
    simp [resolveAndBuild, mkSession, hstore, loadKey, hload, loadIntermediate,
      hfile, signMessageBody, hmatch, henc]
  have hrun := runMutations_all_accept env.hostAccepts hhost
    (computeMutations ⟨[cert], canonicalize original.body,
      mkDetachedSig key (canonicalize original.body)⟩) (mkSession original raw)
  refine ⟨⟨[cert], canonicalize original.body,
    mkDetachedSig key (canonicalize original.body)⟩, hr, rfl, rfl, ?_, ?_, ?_, ?_⟩
  · simp [verifySig, mkDetachedSig, hmatch]
  · simp only [sign, signCore, hr, hrun]
    simp [mkSession, computeMutations, contentHeaders, newHeaders]
  · simp only [sign, signCore, hr, hrun]
    simp [mkSession, computeMutations, contentHeaders, newHeaders, applyMutation]
  · simp only [sign, signCore, hr, hrun, isSmimeSigned]

/-- Alice's leaf certificate. -/
def aliceCert : Cert := ⟨3⟩

/-- Alice's private key, pairing with `aliceCert` and loading fine. -/
def aliceKey : PrivKey := ⟨3, true⟩

/-- An environment registering Alice's identity, with no intermediate
bundle file, a host accepting every mutation, and working MIME
serialization. -/
def aliceEnv : Env :=
  ⟨fun _ => some (aliceCert, aliceKey), absentFs, fun _ => "chain.pem",
    fun _ => true, true⟩

theorem sign_single_leaf_scenario_witness :
    aliceEnv.certStore (normalizeMailFrom "<alice@example.com>")
      = some (aliceCert, aliceKey) ∧
    aliceKey.loadable = true ∧
    aliceKey.keyId = aliceCert.keyId ∧
    aliceEnv.fs (aliceEnv.bundlePath (normalizeMailFrom "<alice@example.com>")) = none ∧
    aliceEnv.encodingOk = true ∧
    (∀ m, aliceEnv.hostAccepts m = true) ∧
    (∃ a : Artifact,
      resolveAndBuild aliceEnv (mkSession plainMsg "<alice@example.com>") = .ok a ∧
      a.chain = [aliceCert] ∧
      a.contentPart = canonicalize plainMsg.body ∧
      verifySig aliceCert a.contentPart a.signaturePart = true ∧
      Mutation.addHeader "Content-Type" signedContentType
        ∈ (sign aliceEnv (mkSession plainMsg "<alice@example.com>")).applied ∧
      (sign aliceEnv (mkSession plainMsg "<alice@example.com>")).msg.body = serialize a ∧
      isSmimeSigned (sign aliceEnv (mkSession plainMsg "<alice@example.com>")) = true) :=
  ⟨rfl, rfl, rfl, rfl, rfl, fun _ => rfl,
    sign_single_leaf_scenario aliceEnv plainMsg "<alice@example.com>"
      aliceCert aliceKey rfl rfl rfl rfl rfl (fun _ => rfl)⟩

end Smime
